import Mathlib

/-!
Verification of the `upcomingPayments` Lightning Web Component
(`src/force-app/main/default/lwc/upcomingPayments/upcomingPayments.js`).

The JavaScript is shallowly embedded: every helper method of the component
becomes a Lean function over an explicit model of the JavaScript values it
touches, and the component's tracked fields become an explicit `ViewState`
record threaded through the event handlers.  Environment-dependent behaviour
(`navigator.language`-driven `Intl` formatting, the runtime timezone offset)
is modelled by explicit parameters collected in `JSEnv`.
-/

/-- Model of the JavaScript values flowing through the component: finite
numbers (as rationals), `NaN`, strings, `null` and `undefined`.  Non-finite
numbers (`Infinity`) do not occur in the modelled data and are omitted. -/
inductive JSValue where
  | num (q : ℚ)
  | nan
  | str (s : String)
  | null
  | undef
deriving DecidableEq

/-- Numeric value of a list of decimal digit characters. -/
def digitsVal (cs : List Char) : ℕ :=
  cs.foldl (fun a c => a * 10 + (c.toNat - 48)) 0

/-- Parse an optional exponent suffix (`e`/`E`, optional sign, digits) of a
JavaScript numeric literal; returns the exponent and the remaining input, or
`none` when an `e`/`E` is present but malformed. -/
def jsParseExp (cs : List Char) : Option (ℤ × List Char) :=
  match cs with
  | [] => some (0, [])
  | c :: rest =>
    if c = 'e' ∨ c = 'E' then
      let (esgn, rest2) : ℤ × List Char :=
        match rest with
        | '-' :: r => (-1, r)
        | '+' :: r => (1, r)
        | _ => (1, rest)
      let ds := rest2.takeWhile Char.isDigit
      let rest3 := rest2.dropWhile Char.isDigit
      if ds.isEmpty then none else some (esgn * (digitsVal ds : ℤ), rest3)
    else some (0, c :: rest)

/-- `10^e` as a rational, for a possibly negative exponent. -/
def ratPow10 (e : ℤ) : ℚ :=
  if 0 ≤ e then ((10 : ℚ) ^ e.toNat) else 1 / ((10 : ℚ) ^ (-e).toNat)

/-- Parse a whole trimmed nonempty string as a JavaScript decimal numeric
literal (`sign? digits [. digits] [exp]`, also `.digits`); `none` models a
`NaN` result.  Hexadecimal and `Infinity` literals do not occur in the
modelled data and are not recognised. -/
def jsParseDecimal (t : String) : Option ℚ :=
  let cs := t.toList
  let (sgn, cs1) : ℚ × List Char :=
    match cs with
    | '-' :: r => (-1, r)
    | '+' :: r => (1, r)
    | _ => (1, cs)
  let intPart := cs1.takeWhile Char.isDigit
  let cs2 := cs1.dropWhile Char.isDigit
  let (fracPart, cs3) : List Char × List Char :=
    match cs2 with
    | '.' :: r => (r.takeWhile Char.isDigit, r.dropWhile Char.isDigit)
    | _ => ([], cs2)
  if intPart.isEmpty ∧ fracPart.isEmpty then none
  else
    match jsParseExp cs3 with
    | none => none
    | some (e, rest) =>
      if rest.isEmpty then
        some (sgn * ((digitsVal intPart : ℚ)
              + (digitsVal fracPart : ℚ) / ((10 : ℚ) ^ fracPart.length))
              * ratPow10 e)
      else none

/-- `String.prototype.trim`: strip leading and trailing whitespace. -/
def jsTrim (s : String) : String :=
  String.mk
    (((s.toList.dropWhile Char.isWhitespace).reverse.dropWhile
        Char.isWhitespace).reverse)

/-- `Number(s)` for a string: trim; the empty string coerces to `0`;
otherwise parse as a decimal literal (`none` = `NaN`). -/
def jsStrToNumber (s : String) : Option ℚ :=
  let t := jsTrim s
  if t = "" then some 0 else jsParseDecimal t

/-- `Number(v)` / the `typeof value === 'number' ? value : Number(value)`
coercion used by `formatCurrency` and `formatDiscount`; `none` = `NaN`
(`Number(null) = 0`, `Number(undefined) = NaN`). -/
def jsToNumber : JSValue → Option ℚ
  | .num q => some q
  | .nan => none
  | .str s => jsStrToNumber s
  | .null => some 0
  | .undef => none

/-- Floor of a rational, computably (`num.fdiv den`). -/
def ratFloor (q : ℚ) : ℤ := Int.fdiv q.num (q.den : ℤ)

/-- Ceiling of a rational, computably. -/
def ratCeil (q : ℚ) : ℤ := -(ratFloor (-q))

/-- Round half away from zero, the default `Intl.NumberFormat` rounding. -/
def ratRoundHalfExpand (q : ℚ) : ℤ :=
  if 0 ≤ q then ratFloor (q + 1/2) else -(ratFloor (-q + 1/2))

/-- Insert a `,` after every third digit of a reversed digit list. -/
def commaGroupRev : List Char → ℕ → List Char
  | [], _ => []
  | c :: rest, i =>
    if (i + 1) % 3 = 0 ∧ rest ≠ [] then c :: ',' :: commaGroupRev rest (i + 1)
    else c :: commaGroupRev rest (i + 1)

/-- Group the digits of a decimal numeral with `,` thousands separators. -/
def insertCommas (s : String) : String :=
  String.mk (commaGroupRev s.toList.reverse 0).reverse

/-- `new Intl.NumberFormat('en-US', {style:'currency', currency:'USD'})
.format(q)`: the fixed fallback currency format of the component. -/
def enUSCurrency (q : ℚ) : String :=
  let cents := ratRoundHalfExpand (q * 100)
  let a := cents.natAbs
  let dollars := a / 100
  let c := a % 100
  (if cents < 0 then "-" else "") ++ "$" ++ insertCommas (toString dollars)
    ++ "." ++ (if c < 10 then "0" ++ toString c else toString c)

/-- `formatCurrency(value)`: coerce to a number; if `NaN`, return the input
unchanged; otherwise format with the runtime-locale formatter `fmt`
(modelled as a parameter; `none` models the `Intl` constructor or `format`
throwing), falling back to the fixed en-US/USD format. -/
def formatCurrency (fmt : ℚ → Option String) (value : JSValue) : JSValue :=
  match jsToNumber value with
  | none => value
  | some q => .str ((fmt q).getD (enUSCurrency q))

/-- `formatDiscount(value)`: textually identical to `formatCurrency` in the
source. -/
def formatDiscount (fmt : ℚ → Option String) (value : JSValue) : JSValue :=
  match jsToNumber value with
  | none => value
  | some q => .str ((fmt q).getD (enUSCurrency q))

/-- String interpolation of a `JSValue` into a template literal.  The
`num` case does not occur for the values interpolated by the component
(amounts are interpolated only after `formatCurrency`/`formatDiscount`,
which yield strings or pass the non-numeric input through), so JavaScript
float printing is modelled only for integers. -/
def jsDisplayString : JSValue → String
  | .str s => s
  | .null => "null"
  | .undef => "undefined"
  | .nan => "NaN"
  | .num q => if q.den = 1 then toString q.num else toString q.num ++ "/" ++ toString q.den

/-- The `body` of a wire error: either an array of sub-errors (each with an
optional `message`) or an object with an optional `message`. -/
inductive JSBody where
  | arr (subs : List (Option String))
  | obj (message : Option String)
deriving DecidableEq

/-- An error object delivered by the wire adapter. -/
structure JSError where
  body : Option JSBody := none
  statusText : Option String := none
deriving DecidableEq

/-- JavaScript truthiness of an optional string: present and nonempty. -/
def jsTruthy (o : Option String) : Bool :=
  match o with
  | some s => s ≠ ""
  | none => false

/-- `error?.statusText || 'Unknown error'`. -/
def statusTextOrUnknown (e : JSError) : String :=
  match e.statusText with
  | some t => if t = "" then "Unknown error" else t
  | none => "Unknown error"

/-- `normalizeError(error)`: if `body` is an array, join the sub-error
messages with `", "` (a missing message joins as the empty string, as
`Array.prototype.join` renders `undefined`); else a truthy `body.message`;
else a truthy `statusText`; else `"Unknown error"`. -/
def normalizeError (e : JSError) : String :=
  match e.body with
  | some (.arr subs) => String.intercalate ", " (subs.map (fun m => m.getD ""))
  | some (.obj msg) =>
    match msg with
    | some m => if m = "" then statusTextOrUnknown e else m
    | none => statusTextOrUnknown e
  | none => statusTextOrUnknown e

/-- A raw payment-method record from the wire payload. -/
structure RawPaymentMethod where
  displayType : Option String := none
  nickname : Option String := none
  cardType : Option String := none
  endingIn : Option String := none
  expiration : Option String := none
deriving DecidableEq

/-- The mapped payment-method view object. -/
structure PaymentMethodView where
  label : Option String
  nickname : Option String
  cardType : Option String
  endingIn : Option String
  expiration : Option String
  type : String
deriving DecidableEq

/-- `mapPaymentMethod(pm)`: absent input or `displayType === 'BILL_TO_ACCOUNT'`
yields the fixed bill-to-account view; any other record is copied verbatim
into a stored-account view with a `null` label. -/
def mapPaymentMethod (pm : Option RawPaymentMethod) : PaymentMethodView :=
  match pm with
  | none => ⟨some "Bill to Account", none, none, none, none, "BILL_TO_ACCOUNT"⟩
  | some p =>
    if p.displayType = some "BILL_TO_ACCOUNT" then
      ⟨some "Bill to Account", none, none, none, none, "BILL_TO_ACCOUNT"⟩
    else
      ⟨none, p.nickname, p.cardType, p.endingIn, p.expiration, "STORED_ACCOUNT"⟩

/-- A raw discount record from the wire payload. -/
structure RawDiscount where
  name : Option String := none
  amount : JSValue := .undef
  discountScheduleId : String := ""
  parentFeeScheduleId : Option String := none
  tliDescription : Option String := none
deriving DecidableEq

/-- A raw fee ("section item") record from the wire payload. -/
structure RawFeeItem where
  feeName : Option String := none
  feeAmount : JSValue := .undef
  feeScheduleId : String := ""
  tliDescription : Option String := none
  discounts : Option (List RawDiscount) := none
deriving DecidableEq

/-- A raw billing-schedule group from the wire payload. -/
structure RawGroup where
  sectionId : String := ""
  billingScheduleGroupId : String := ""
  billingScheduleGroupName : Option String := none
  nextBillingDate : Option String := none
  feeTotal : JSValue := .undef
  discountTotal : JSValue := .undef
  netTotal : JSValue := .undef
  paymentMethod : Option RawPaymentMethod := none
  tliDescription : Option String := none
  items : Option (List RawFeeItem) := none
  miscDiscounts : Option (List RawDiscount) := none
deriving DecidableEq

/-- A discount after `mapDiscounts` (amount already formatted). -/
structure MappedDiscount where
  name : Option String
  amount : JSValue
  discountScheduleId : String
  parentFeeScheduleId : Option String
  tliDescription : Option String
deriving DecidableEq

/-- A fee item after `mapSectionItems` (amount already formatted). -/
structure MappedFeeItem where
  feeName : Option String
  feeAmount : JSValue
  feeScheduleId : String
  tliDescription : Option String
  discounts : List MappedDiscount
deriving DecidableEq

/-- One flattened table row produced by `buildDetailRows`. -/
structure DetailRow where
  id : String
  description : String
  type : String
  amount : JSValue
  recordId : String
deriving DecidableEq

/-- `a || dflt` for an optional string `a` (empty string is falsy). -/
def jsStrOr (o : Option String) (dflt : String) : String :=
  match o with
  | some s => if s = "" then dflt else s
  | none => dflt

/-- The fee row pushed for one fee item. -/
def feeRow (fee : MappedFeeItem) : DetailRow :=
  ⟨"fee-" ++ fee.feeScheduleId,
   jsStrOr fee.tliDescription (jsStrOr fee.feeName "—"),
   "Fee", fee.feeAmount, fee.feeScheduleId⟩

/-- The discount row pushed for a discount linked to a fee. -/
def discRow (disc : MappedDiscount) : DetailRow :=
  ⟨"disc-" ++ disc.discountScheduleId,
   jsStrOr disc.tliDescription (jsStrOr disc.name "—"),
   "Discount", .str ("-" ++ jsDisplayString disc.amount), disc.discountScheduleId⟩

/-- The discount row pushed for a misc discount (no fee match). -/
def miscDiscRow (disc : MappedDiscount) : DetailRow :=
  ⟨"disc-misc-" ++ disc.discountScheduleId,
   jsStrOr disc.tliDescription (jsStrOr disc.name "—"),
   "Discount", .str ("-" ++ jsDisplayString disc.amount), disc.discountScheduleId⟩

/-- `buildDetailRows(group)`, on the group's (always-array) `items` and
`miscDiscounts`: for each fee item, its fee row then its discounts' rows,
then one row per misc discount. -/
def buildDetailRows (items : List MappedFeeItem) (misc : List MappedDiscount) :
    List DetailRow :=
  (items.flatMap (fun fee => feeRow fee :: fee.discounts.map discRow))
    ++ misc.map miscDiscRow

/-- Days since 1970-01-01 of a proleptic-Gregorian civil date
(floor-division form of the standard civil-from-days inverse pair). -/
def daysFromCivil (y m d : ℤ) : ℤ :=
  let yy := if m ≤ 2 then y - 1 else y
  let era := Int.fdiv yy 400
  let yoe := yy - era * 400
  let mp := if 2 < m then m - 3 else m + 9
  let doy := Int.fdiv (153 * mp + 2) 5 + d - 1
  let doe := yoe * 365 + Int.fdiv yoe 4 - Int.fdiv yoe 100 + doy
  era * 146097 + doe - 719468

/-- Civil date `(year, month, day)` of a count of days since 1970-01-01. -/
def civilFromDays (z0 : ℤ) : ℤ × ℤ × ℤ :=
  let z := z0 + 719468
  let era := Int.fdiv z 146097
  let doe := z - era * 146097
  let yoe := Int.fdiv
    (doe - Int.fdiv doe 1460 + Int.fdiv doe 36524 - Int.fdiv doe 146096) 365
  let y := yoe + era * 400
  let doy := doe - (365 * yoe + Int.fdiv yoe 4 - Int.fdiv yoe 100)
  let mp := Int.fdiv (5 * doy + 2) 153
  let d := doy - Int.fdiv (153 * mp + 2) 5 + 1
  let m := if mp < 10 then mp + 3 else mp - 9
  (if m ≤ 2 then y + 1 else y, m, d)

/-- Epoch minutes of `new Date(y, monthIndex, day)` evaluated in a timezone
that is `off` minutes ahead of UTC: the constructor interprets its
arguments as local wall-clock time (normalising month/day overflow, and
mapping two-digit years into 19xx). -/
def jsDateEpochMin (off y monthIndex day : ℤ) : ℤ :=
  let y2 := if 0 ≤ y ∧ y ≤ 99 then y + 1900 else y
  let ny := y2 + Int.fdiv monthIndex 12
  let nm := Int.emod monthIndex 12 + 1
  (daysFromCivil ny nm 1 + (day - 1)) * 1440 - off

/-- The local civil date that `Intl.DateTimeFormat` renders for an epoch
instant, in a timezone `off` minutes ahead of UTC. -/
def localCivilOfEpochMin (off epochMin : ℤ) : ℤ × ℤ × ℤ :=
  civilFromDays (Int.fdiv (epochMin + off) 1440)

/-- `s.split('-')` on the character list of `s`, accumulating the current
piece in reverse. -/
def splitDashAux : List Char → List Char → List String
  | [], acc => [String.mk acc.reverse]
  | c :: rest, acc =>
    if c = '-' then String.mk acc.reverse :: splitDashAux rest []
    else splitDashAux rest (c :: acc)

/-- `s.split('-')`. -/
def jsSplitDash (s : String) : List String := splitDashAux s.toList []

/-- `parseInt(s, 10)`: skip leading whitespace, optional sign, then leading
decimal digits (ignoring any trailing characters); `none` = `NaN`. -/
def parseIntJS (s : String) : Option ℤ :=
  let cs := s.toList.dropWhile Char.isWhitespace
  let (sgn, cs2) : ℤ × List Char :=
    match cs with
    | '-' :: r => (-1, r)
    | '+' :: r => (1, r)
    | _ => (1, cs)
  let ds := cs2.takeWhile Char.isDigit
  if ds.isEmpty then none else some (sgn * (digitsVal ds : ℤ))

/-- `v || dflt` for an optional integer (`NaN`, `undefined` and `0` are all
falsy and yield the default). -/
def jsIntOr (o : Option ℤ) (dflt : ℤ) : ℤ :=
  match o with
  | some v => if v = 0 then dflt else v
  | none => dflt

/-- `formatDate(dateStr)` in a timezone `off` minutes ahead of UTC, with
`render` the locale's medium-date rendering of the local civil components:
split on `-`, `parseInt` the pieces, build `new Date(y, (m||1)-1, d||1)`
and format it; an unparseable year gives an invalid date, whose formatting
throws, and the catch returns the input unchanged. -/
def formatDate (off : ℤ) (render : ℤ × ℤ × ℤ → String)
    (dateStr : Option String) : Option String :=
  let s := dateStr.getD ""
  let parts := (jsSplitDash s).map parseIntJS
  match parts.getD 0 none with
  | none => dateStr
  | some y =>
    let m := jsIntOr (parts.getD 1 none) 1
    let d := jsIntOr (parts.getD 2 none) 1
    some (render (localCivilOfEpochMin off (jsDateEpochMin off y (m - 1) d)))

/-- The runtime environment: the timezone offset (minutes ahead of UTC),
the locale's date rendering, and the locale currency formatter used by
`formatCurrency`/`formatDiscount` (`none` = that formatter throws). -/
structure JSEnv where
  tzOffsetMin : ℤ
  renderDate : ℤ × ℤ × ℤ → String
  localeCurrency : ℚ → Option String

/-- `mapDiscounts(discounts)`: non-arrays become `[]`; each discount's
amount is formatted with `formatDiscount`. -/
def mapDiscounts (env : JSEnv) (ds : Option (List RawDiscount)) :
    List MappedDiscount :=
  (ds.getD []).map (fun d =>
    ⟨d.name, formatDiscount env.localeCurrency d.amount, d.discountScheduleId,
     d.parentFeeScheduleId, d.tliDescription⟩)

/-- `mapSectionItems(items)`: non-arrays become `[]`; each fee amount is
formatted with `formatCurrency` and its discounts mapped. -/
def mapSectionItems (env : JSEnv) (items : Option (List RawFeeItem)) :
    List MappedFeeItem :=
  (items.getD []).map (fun it =>
    ⟨it.feeName, formatCurrency env.localeCurrency it.feeAmount,
     it.feeScheduleId, it.tliDescription, mapDiscounts env it.discounts⟩)

/-- Three non-breaking spaces, the accordion-label padding. -/
def padNbsp : String := "   "

/-- A display group: one raw group after the mapping in `wiredPayments`. -/
structure DisplayGroup where
  id : String
  groupId : String
  name : Option String
  nextDate : Option String
  feeTotal : JSValue
  discountTotal : JSValue
  netTotal : JSValue
  paymentMethod : PaymentMethodView
  tliDescription : Option String
  items : List MappedFeeItem
  miscDiscounts : List MappedDiscount
  detailRows : List DetailRow
  accordionLabel : String
deriving DecidableEq

/-- The per-group mapping performed in the `data` branch of
`wiredPayments`: map fields, flatten detail rows, build the accordion
label. -/
def mapGroup (env : JSEnv) (g : RawGroup) : DisplayGroup :=
  let items := mapSectionItems env g.items
  let misc := mapDiscounts env g.miscDiscounts
  let feeTotal := formatCurrency env.localeCurrency g.feeTotal
  let discountTotal := formatDiscount env.localeCurrency g.discountTotal
  { id := g.sectionId
    groupId := g.billingScheduleGroupId
    name := g.billingScheduleGroupName
    nextDate :=
      if jsTruthy g.nextBillingDate then
        formatDate env.tzOffsetMin env.renderDate g.nextBillingDate
      else none
    feeTotal := feeTotal
    discountTotal := discountTotal
    netTotal := formatCurrency env.localeCurrency g.netTotal
    paymentMethod := mapPaymentMethod g.paymentMethod
    tliDescription := g.tliDescription
    items := items
    miscDiscounts := misc
    detailRows := buildDetailRows items misc
    accordionLabel := "Details: " ++ padNbsp ++ "Fees " ++ jsDisplayString feeTotal
      ++ padNbsp ++ "·" ++ padNbsp ++ "Discounts " ++ jsDisplayString discountTotal }

/-- The component's tracked state. -/
structure ViewState where
  groups : List DisplayGroup
  displayedGroups : List DisplayGroup
  error : Option String
  loading : Bool
  currentPage : ℕ
deriving DecidableEq

/-- The fixed page size of the component. -/
def pageSize : ℕ := 3

/-- `Math.max(1, Math.ceil(count / pageSize))`, the `totalPages` getter
(float division modelled exactly by rational division). -/
def totalPagesJS (count ps : ℕ) : ℕ :=
  max 1 (ratCeil ((count : ℚ) / (ps : ℚ))).toNat

/-- `totalPages` of a state. -/
def totalPages (s : ViewState) : ℕ := totalPagesJS s.groups.length pageSize

/-- `groups.slice((page-1)*ps, (page-1)*ps + ps)` for `page ≥ 1` (the only
pages the component ever holds; `slice` clamps to the array bounds). -/
def slicePage {α : Type} (groups : List α) (page ps : ℕ) : List α :=
  (groups.drop ((page - 1) * ps)).take ps

/-- `refreshDisplayed()`. -/
def refreshDisplayed (s : ViewState) : ViewState :=
  { s with displayedGroups := slicePage s.groups s.currentPage pageSize }

/-- The `disablePrev` getter (`currentPage <= 1`). -/
def disablePrev (s : ViewState) : Bool := s.currentPage ≤ 1

/-- The `disableNext` getter (`currentPage >= totalPages`). -/
def disableNext (s : ViewState) : Bool := totalPages s ≤ s.currentPage

/-- `handleFirst()`. -/
def handleFirst (s : ViewState) : ViewState :=
  if disablePrev s then s else refreshDisplayed { s with currentPage := 1 }

/-- `handlePrev()`. -/
def handlePrev (s : ViewState) : ViewState :=
  if disablePrev s then s
  else refreshDisplayed { s with currentPage := s.currentPage - 1 }

/-- `handleNext()`. -/
def handleNext (s : ViewState) : ViewState :=
  if disableNext s then s
  else refreshDisplayed { s with currentPage := s.currentPage + 1 }

/-- `handleLast()`. -/
def handleLast (s : ViewState) : ViewState :=
  if disableNext s then s
  else refreshDisplayed { s with currentPage := totalPages s }

/-- `wiredPayments({data, error})`: clear `loading`; a (truthy, i.e.
present) `data` array is mapped, the page reset to 1, the slice
recomputed and the error cleared; otherwise a present `error` is
normalised and the group list, slice and page are reset; with neither,
only `loading` changes. -/
def wiredPayments (env : JSEnv) (data : Option (List RawGroup))
    (error : Option JSError) (s : ViewState) : ViewState :=
  let s1 := { s with loading := false }
  match data with
  | some gs =>
    let s2 := { s1 with groups := gs.map (mapGroup env), currentPage := 1 }
    let s3 := refreshDisplayed s2
    { s3 with error := none }
  | none =>
    match error with
    | some e =>
      { s1 with error := some (normalizeError e), groups := [],
                displayedGroups := [], currentPage := 1 }
    | none => s1

/-! ### Helper lemmas shared by the claims -/

lemma ratFloor_eq (q : ℚ) : ratFloor q = ⌊q⌋ := by
  rw [Rat.floor_def, ratFloor, Int.fdiv_eq_ediv _ (Int.natCast_nonneg _)]

lemma ratCeil_eq (q : ℚ) : ratCeil q = ⌈q⌉ := by
  rw [ratCeil, ratFloor_eq, Int.floor_neg, neg_neg]

lemma ratCeil_natCast_div (count ps : ℕ) (hps : 1 ≤ ps) :
    ratCeil ((count : ℚ) / (ps : ℚ)) = (((count + ps - 1) / ps : ℕ) : ℤ) := by
  have hps0 : ((ps : ℤ)) ≠ 0 := by
    have : 0 < ps := hps
    omega
  set q : ℕ := (count + ps - 1) / ps with hq
  set r : ℕ := (count + ps - 1) % ps with hr
  have hdm : ps * q + r = count + ps - 1 := Nat.div_add_mod _ _
  have hrlt : r < ps := Nat.mod_lt _ (by omega)
  have hdmZ : (ps : ℤ) * q + r = (count : ℤ) + ps - 1 := by
    have h1 := congrArg (fun n : ℕ => (n : ℤ)) hdm
    push_cast at h1
    have h2 : ((count + ps - 1 : ℕ) : ℤ) = (count : ℤ) + ps - 1 := by omega
    push_cast at h2
    linarith
  have key : (-(count : ℤ)) / (ps : ℤ) = -(q : ℤ) := by
    have h1 : (-(count : ℤ)) = ((ps : ℤ) - 1 - r) + (-(q : ℤ)) * ps := by linarith
    rw [h1, Int.add_mul_ediv_right _ _ hps0,
        Int.ediv_eq_zero_of_lt (by omega) (by omega), zero_add]
  have hceil : ⌈(count : ℚ) / (ps : ℚ)⌉ = -⌊-((count : ℚ) / (ps : ℚ))⌋ := by
    rw [Int.floor_neg, neg_neg]
  have hcast : -((count : ℚ) / (ps : ℚ)) = ((-(count : ℤ) : ℤ) : ℚ) / ((ps : ℕ) : ℚ) := by
    push_cast
    ring
  rw [ratCeil_eq, hceil, hcast, Rat.floor_intCast_div_natCast, key, neg_neg]

lemma totalPagesJS_eq (count ps : ℕ) (hps : 1 ≤ ps) :
    totalPagesJS count ps = max 1 ((count + ps - 1) / ps) := by
  rw [totalPagesJS, ratCeil_natCast_div count ps hps, Int.toNat_natCast]

lemma one_le_totalPagesJS (count ps : ℕ) : 1 ≤ totalPagesJS count ps :=
  le_max_left _ _

lemma slicePage_length_le {α : Type} (groups : List α) (page ps : ℕ) :
    (slicePage groups page ps).length ≤ ps := by
  simp only [slicePage, List.length_take]
  omega

lemma slicePage_getElem? {α : Type} (groups : List α) (page ps i : ℕ) :
    (slicePage groups page ps)[i]? =
      if i < ps then groups[(page - 1) * ps + i]? else none := by
  by_cases h : i < ps
  · rw [if_pos h, slicePage, List.getElem?_take_of_lt h, List.getElem?_drop]
  · rw [if_neg h, slicePage, List.getElem?_eq_none]
    have := List.length_take_le ps (groups.drop ((page - 1) * ps))
    omega

lemma buildDetailRows_length (items : List MappedFeeItem)
    (misc : List MappedDiscount) :
    (buildDetailRows items misc).length =
      items.length + (items.map (fun it => it.discounts.length)).sum
        + misc.length := by
  induction items with
  | nil => simp [buildDetailRows]
  | cons a t ih =>
    simp only [buildDetailRows, List.flatMap_cons, List.append_assoc,
      List.length_append, List.length_cons, List.length_map, List.map_cons,
      List.sum_cons] at ih ⊢
    omega

lemma buildDetailRows_map {β : Type} (f : DetailRow → β)
    (items : List MappedFeeItem) (misc : List MappedDiscount) :
    (buildDetailRows items misc).map f =
      items.flatMap (fun fee =>
        f (feeRow fee) :: fee.discounts.map (fun d => f (discRow d)))
      ++ misc.map (fun d => f (miscDiscRow d)) := by
  simp only [buildDetailRows, List.map_append, List.map_flatMap, List.map_cons,
    List.map_map]
  rfl

/-! ### Sample values used by the witnesses -/

/-- A concrete display group. -/
def sampleGroup : DisplayGroup :=
  ⟨"s1", "g1", some "Group", none, .str "$1.00", .str "$0.00", .str "$1.00",
   ⟨some "Bill to Account", none, none, none, none, "BILL_TO_ACCOUNT"⟩,
   none, [], [], [], "Details:"⟩

/-- Seven display groups: with page size 3 this gives three pages. -/
def sampleGroups7 : List DisplayGroup := List.replicate 7 sampleGroup

/-- A loaded state on page 1 of the seven sample groups. -/
def statePage1 : ViewState := ⟨sampleGroups7, sampleGroups7.take 3, none, false, 1⟩

/-- A loaded state on page 2 of the seven sample groups. -/
def statePage2 : ViewState := ⟨sampleGroups7, [], none, false, 2⟩

/-- A loaded state on page 3 (the last page) of the seven sample groups. -/
def statePage3 : ViewState := ⟨sampleGroups7, [], none, false, 3⟩

/-- A concrete runtime environment. -/
def sampleEnv : JSEnv := ⟨0, fun _ => "", fun _ => none⟩

lemma totalPages_seven : totalPagesJS 7 3 = 3 := by
  rw [totalPagesJS_eq 7 3 (by omega)]
  omega

/-- The page-count invariant of the component: `currentPage ∈ [1, totalPages]`. -/
def pageInv (s : ViewState) : Prop :=
  1 ≤ s.currentPage ∧ s.currentPage ≤ totalPages s

/-! ### The claims -/

/-- C1: for every raw group, `buildDetailRows` (as invoked on the mapped
group inside `wiredPayments`) produces exactly one `Fee` row per fee item
followed by that fee's `Discount` rows in input order, then one `Discount`
row per misc discount, with ids `fee-`/`disc-`/`disc-misc-` plus the
schedule id; its length is (fee items) + (sum of their discount counts) +
(misc discounts); no row is omitted, and a missing description degrades to
the em-dash placeholder (the full description column is characterised). -/
theorem detailRowsOrdered (env : JSEnv) (g : RawGroup) :
    (mapGroup env g).detailRows.length =
        (g.items.getD []).length
          + ((g.items.getD []).map (fun it => (it.discounts.getD []).length)).sum
          + (g.miscDiscounts.getD []).length
    ∧ (mapGroup env g).detailRows.map DetailRow.id =
        (g.items.getD []).flatMap (fun it =>
          ("fee-" ++ it.feeScheduleId)
            :: (it.discounts.getD []).map (fun d => "disc-" ++ d.discountScheduleId))
        ++ (g.miscDiscounts.getD []).map
            (fun d => "disc-misc-" ++ d.discountScheduleId)
    ∧ (mapGroup env g).detailRows.map DetailRow.description =
        (g.items.getD []).flatMap (fun it =>
          jsStrOr it.tliDescription (jsStrOr it.feeName "—")
            :: (it.discounts.getD []).map
                (fun d => jsStrOr d.tliDescription (jsStrOr d.name "—")))
        ++ (g.miscDiscounts.getD []).map
            (fun d => jsStrOr d.tliDescription (jsStrOr d.name "—")) := by
  have hdr : (mapGroup env g).detailRows
      = buildDetailRows (mapSectionItems env g.items)
          (mapDiscounts env g.miscDiscounts) := rfl
  refine ⟨?_, ?_, ?_⟩
  · rw [hdr, buildDetailRows_length]
    simp [mapSectionItems, mapDiscounts, List.map_map, Function.comp_def]
  · rw [hdr, buildDetailRows_map]
    simp [mapSectionItems, mapDiscounts, List.flatMap_map, List.map_map,
      Function.comp_def, feeRow, discRow, miscDiscRow]
  · rw [hdr, buildDetailRows_map]
    simp [mapSectionItems, mapDiscounts, List.flatMap_map, List.map_map,
      Function.comp_def, feeRow, discRow, miscDiscRow]

/-- C2: `totalPages` is `max 1 ⌈count / pageSize⌉` for every count and every
page size ≥ 1 (the component fixes `pageSize = 3`), and the slice computed
by `refreshDisplayed` is `groups[(page-1)*ps : page*ps]` clamped to the
array bounds: it never holds more than `ps` elements, its `i`-th element is
`groups[(page-1)*ps + i]`, and it is total (an out-of-range page just gives
an empty or truncated slice). -/
theorem paginationBounds (count ps : ℕ) (hps : 1 ≤ ps) :
    pageSize = 3
    ∧ totalPagesJS count ps = max 1 ((count + ps - 1) / ps)
    ∧ (∀ (groups : List DisplayGroup) (page i : ℕ),
        (slicePage groups page ps).length ≤ ps
        ∧ (refreshDisplayed ⟨groups, [], none, false, page⟩).displayedGroups
            = slicePage groups page pageSize
        ∧ (slicePage groups page ps)[i]? =
            (if i < ps then groups[(page - 1) * ps + i]? else none)) :=
  ⟨rfl, totalPagesJS_eq count ps hps, fun groups page i =>
    ⟨slicePage_length_le groups page ps, rfl, slicePage_getElem? groups page ps i⟩⟩

/-- C2 witness: the conclusions at `count = 7`, `ps = 3`, a concrete group
list, page 2 and index 1. -/
theorem paginationBounds_witness :
    totalPagesJS 7 3 = max 1 ((7 + 3 - 1) / 3)
    ∧ (slicePage sampleGroups7 2 3).length ≤ 3
    ∧ (slicePage sampleGroups7 2 3)[1]? =
        (if 1 < 3 then sampleGroups7[(2 - 1) * 3 + 1]? else none) :=
  ⟨(paginationBounds 7 3 (by omega)).2.1,
   ((paginationBounds 7 3 (by omega)).2.2 sampleGroups7 2 1).1,
   ((paginationBounds 7 3 (by omega)).2.2 sampleGroups7 2 1).2.2⟩

/-- C3: `handlePrev` is a no-op on page 1 and `handleNext` is a no-op on
the last page (state, hence also the displayed slice, unchanged); on any
other page `handlePrev`/`handleNext` change `currentPage` by exactly one
and recompute the displayed slice from the unchanged group list. -/
theorem navNoOpAndStep (s : ViewState) :
    (s.currentPage = 1 → handlePrev s = s)
    ∧ (s.currentPage = totalPages s → handleNext s = s)
    ∧ (1 < s.currentPage →
        (handlePrev s).currentPage = s.currentPage - 1
          ∧ (handlePrev s).displayedGroups
              = slicePage s.groups (s.currentPage - 1) pageSize
          ∧ (handlePrev s).groups = s.groups)
    ∧ (s.currentPage < totalPages s →
        (handleNext s).currentPage = s.currentPage + 1
          ∧ (handleNext s).displayedGroups
              = slicePage s.groups (s.currentPage + 1) pageSize
          ∧ (handleNext s).groups = s.groups) := by
  refine ⟨fun h => ?_, fun h => ?_, fun h => ?_, fun h => ?_⟩
  · simp [handlePrev, disablePrev, h]
  · simp [handleNext, disableNext, h]
  · have hb : ¬(disablePrev s = true) := by
      simp only [disablePrev, decide_eq_true_eq]
      omega
    simp only [handlePrev, if_neg hb]
    exact ⟨rfl, rfl, rfl⟩
  · have h2 : s.currentPage < totalPagesJS s.groups.length pageSize := h
    have hb : ¬(disableNext s = true) := by
      simp only [disableNext, decide_eq_true_eq]
      show ¬(totalPagesJS s.groups.length pageSize ≤ s.currentPage)
      omega
    simp only [handleNext, if_neg hb]
    exact ⟨rfl, rfl, rfl⟩

/-- C3 witness: no-ops on page 1 and on the last page of seven groups, and
single steps from page 2. -/
theorem navNoOpAndStep_witness :
    handlePrev statePage1 = statePage1
    ∧ handleNext statePage3 = statePage3
    ∧ (handlePrev statePage2).currentPage = 1
    ∧ (handleNext statePage2).currentPage = 3 := by
  have h3 : totalPages statePage3 = 3 := by
    rw [show totalPages statePage3 = totalPagesJS 7 3 from rfl, totalPages_seven]
  have h2 : totalPages statePage2 = 3 := by
    rw [show totalPages statePage2 = totalPagesJS 7 3 from rfl, totalPages_seven]
  exact ⟨(navNoOpAndStep statePage1).1 rfl,
         (navNoOpAndStep statePage3).2.1 (by rw [h3]; rfl),
         ((navNoOpAndStep statePage2).2.2.1 (by decide)).1,
         ((navNoOpAndStep statePage2).2.2.2 (by rw [h2]; decide)).1⟩

/-- C4: the invariant `currentPage ∈ [1, totalPages]` is preserved by all
four navigation handlers, and holds unconditionally after data or error
arrival; any payload arrival resets `currentPage` to 1 and recomputes the
displayed slice from the freshly mapped group list, and error arrival
resets the page and clears the slice. -/
theorem stateInvariant (env : JSEnv) (gs : List RawGroup) (e : JSError)
    (s : ViewState) :
    (pageInv s →
      pageInv (handleFirst s) ∧ pageInv (handlePrev s)
        ∧ pageInv (handleNext s) ∧ pageInv (handleLast s))
    ∧ pageInv (wiredPayments env (some gs) none s)
    ∧ (wiredPayments env (some gs) none s).currentPage = 1
    ∧ (wiredPayments env (some gs) none s).groups = gs.map (mapGroup env)
    ∧ (wiredPayments env (some gs) none s).displayedGroups
        = slicePage (gs.map (mapGroup env)) 1 pageSize
    ∧ pageInv (wiredPayments env none (some e) s)
    ∧ (wiredPayments env none (some e) s).currentPage = 1
    ∧ (wiredPayments env none (some e) s).displayedGroups = [] := by
  refine ⟨fun h => ?_,
          ⟨le_refl 1, one_le_totalPagesJS _ _⟩, rfl, rfl, rfl,
          ⟨le_refl 1, one_le_totalPagesJS _ _⟩, rfl, rfl⟩
  obtain ⟨h1, h2⟩ := h
  have h2A : s.currentPage ≤ totalPagesJS s.groups.length pageSize := h2
  refine ⟨?_, ?_, ?_, ?_⟩
  · by_cases hb : disablePrev s = true
    · simp only [handleFirst, if_pos hb]
      exact ⟨h1, h2⟩
    · simp only [handleFirst, if_neg hb]
      exact ⟨le_refl 1, one_le_totalPagesJS _ _⟩
  · by_cases hb : disablePrev s = true
    · simp only [handlePrev, if_pos hb]
      exact ⟨h1, h2⟩
    · simp only [disablePrev, decide_eq_true_eq] at hb
      simp only [handlePrev, disablePrev]
      rw [if_neg (by simpa [decide_eq_true_eq] using hb)]
      refine ⟨?_, ?_⟩
      · show 1 ≤ s.currentPage - 1
        omega
      · show s.currentPage - 1 ≤ totalPagesJS s.groups.length pageSize
        omega
  · by_cases hb : disableNext s = true
    · simp only [handleNext, if_pos hb]
      exact ⟨h1, h2⟩
    · have hb2 : ¬(totalPagesJS s.groups.length pageSize ≤ s.currentPage) := by
        simpa [disableNext, decide_eq_true_eq] using hb
      simp only [handleNext]
      rw [if_neg hb]
      refine ⟨?_, ?_⟩
      · show 1 ≤ s.currentPage + 1
        omega
      · show s.currentPage + 1 ≤ totalPagesJS s.groups.length pageSize
        omega
  · by_cases hb : disableNext s = true
    · simp only [handleLast, if_pos hb]
      exact ⟨h1, h2⟩
    · simp only [handleLast]
      rw [if_neg hb]
      refine ⟨?_, ?_⟩
      · show 1 ≤ totalPagesJS s.groups.length pageSize
        exact one_le_totalPagesJS _ _
      · show totalPagesJS s.groups.length pageSize
            ≤ totalPagesJS s.groups.length pageSize
        exact le_refl _

/-- C4 witness: the invariant hypotheses discharged on a concrete loaded
state (page 2 of seven groups), with a concrete payload and error. -/
theorem stateInvariant_witness :
    pageInv (handleNext statePage2)
    ∧ (wiredPayments sampleEnv (some []) none statePage2).currentPage = 1
    ∧ pageInv (wiredPayments sampleEnv none (some ⟨none, none⟩) statePage2) := by
  have hinv : pageInv statePage2 := by
    refine ⟨by decide, ?_⟩
    show (2 : ℕ) ≤ totalPages statePage2
    rw [show totalPages statePage2 = totalPagesJS 7 3 from rfl, totalPages_seven]
    omega
  exact ⟨((stateInvariant sampleEnv [] ⟨none, none⟩ statePage2).1 hinv).2.2.1,
         (stateInvariant sampleEnv [] ⟨none, none⟩ statePage2).2.2.1,
         (stateInvariant sampleEnv [] ⟨none, none⟩ statePage2).2.2.2.2.2.1⟩

/-- C5: `formatDate` builds the date from the year/month/day components of
the input string via the local-time `Date` constructor and renders the
local civil components, so for `"2025-01-05"` the rendered components are
January 5, 2025 under every timezone offset; an absent input or one whose
year fails to parse is returned unchanged. -/
theorem formatDate_calendarComponents (off : ℤ)
    (render : ℤ × ℤ × ℤ → String) :
    formatDate off render (some "2025-01-05") = some (render (2025, 1, 5))
    ∧ formatDate off render none = none
    ∧ (∀ s, ((jsSplitDash s).map parseIntJS).getD 0 none = none →
        formatDate off render (some s) = some s) := by
  refine ⟨?_, rfl, fun s h => ?_⟩
  · have h1 : formatDate off render (some "2025-01-05")
        = some (render (localCivilOfEpochMin off
            (jsDateEpochMin off 2025 0 5))) := rfl
    have h2 : jsDateEpochMin off 2025 0 5 = 20093 * 1440 - off := rfl
    have h3 : localCivilOfEpochMin off (20093 * 1440 - off) = (2025, 1, 5) := by
      rw [localCivilOfEpochMin]
      have h4 : (20093 * 1440 - off + off : ℤ) = 20093 * 1440 := by ring
      rw [h4, show Int.fdiv (20093 * 1440) 1440 = 20093 from by decide]
      decide
    rw [h1, h2, h3]
  · simp only [formatDate, Option.getD_some]
    rw [h]

/-- C5 witness: an unparseable input is returned unchanged (concrete
offset, renderer and input). -/
theorem formatDate_calendarComponents_witness :
    formatDate 0 (fun _ => "rendered") (some "N/A") = some "N/A" :=
  (formatDate_calendarComponents 0 (fun _ => "rendered")).2.2 "N/A" (by decide)

/-- C6: any value whose number coercion is `NaN` (for example the string
`"N/A"`) is returned by `formatCurrency` unchanged, with no error; any
parseable value is formatted by the locale formatter, falling back to the
fixed en-US/USD format exactly when the locale formatter throws. -/
theorem currencyPassThrough (fmt : ℚ → Option String) (v : JSValue) :
    jsToNumber (JSValue.str "N/A") = none
    ∧ (jsToNumber v = none → formatCurrency fmt v = v)
    ∧ (∀ q, jsToNumber v = some q →
        formatCurrency fmt v = JSValue.str ((fmt q).getD (enUSCurrency q))) :=
  ⟨by decide,
   fun h => by simp [formatCurrency, h],
   fun q h => by simp [formatCurrency, h]⟩

/-- C6 witness: `formatCurrency` returns `"N/A"` unchanged under a throwing
locale formatter. -/
theorem currencyPassThrough_witness :
    formatCurrency (fun _ => none) (JSValue.str "N/A") = JSValue.str "N/A" :=
  (currencyPassThrough (fun _ => none) (JSValue.str "N/A")).2.1 (by decide)

/-- C7: `normalizeError` is a strict priority chain: an array body joins
the sub-error messages with `", "`; otherwise a truthy `body.message` is
returned; otherwise a truthy `statusText`; otherwise the literal
`"Unknown error"` — including the three concrete examples of the claim. -/
theorem errorPriority (e : JSError) :
    (∀ subs, e.body = some (JSBody.arr subs) →
      normalizeError e = String.intercalate ", " (subs.map (fun m => m.getD "")))
    ∧ (∀ m, e.body = some (JSBody.obj (some m)) → m ≠ "" →
        normalizeError e = m)
    ∧ ((e.body = none ∨ e.body = some (JSBody.obj none)
          ∨ e.body = some (JSBody.obj (some ""))) →
        normalizeError e = statusTextOrUnknown e)
    ∧ (∀ t, e.statusText = some t → t ≠ "" → statusTextOrUnknown e = t)
    ∧ ((e.statusText = none ∨ e.statusText = some "") →
        statusTextOrUnknown e = "Unknown error")
    ∧ normalizeError ⟨some (JSBody.arr [some "A", some "B"]), none⟩ = "A, B"
    ∧ normalizeError ⟨some (JSBody.obj (some "C")), none⟩ = "C"
    ∧ normalizeError ⟨none, none⟩ = "Unknown error" := by
  obtain ⟨b, st⟩ := e
  refine ⟨fun subs hb => ?_, fun m hb hm => ?_, fun hb => ?_,
          fun t ht hne => ?_, fun ht => ?_, by decide, by decide, by decide⟩
  · cases hb
    simp [normalizeError]
  · cases hb
    simp [normalizeError, hm]
  · rcases hb with h | h | h <;> cases h <;> rfl
  · cases ht
    simp [statusTextOrUnknown, hne]
  · rcases ht with h | h <;> cases h <;> rfl

/-- C7 witness: each priority case discharged on a concrete error value. -/
theorem errorPriority_witness :
    normalizeError ⟨some (JSBody.arr [some "X", none]), none⟩
        = String.intercalate ", " ([some "X", none].map (fun m => m.getD ""))
    ∧ normalizeError ⟨some (JSBody.obj (some "M")), some "S"⟩ = "M"
    ∧ normalizeError ⟨some (JSBody.obj none), some "S"⟩
        = statusTextOrUnknown ⟨some (JSBody.obj none), some "S"⟩
    ∧ statusTextOrUnknown ⟨none, some "S"⟩ = "S"
    ∧ statusTextOrUnknown ⟨none, some ""⟩ = "Unknown error" :=
  ⟨(errorPriority _).1 _ rfl,
   (errorPriority _).2.1 "M" rfl (by decide),
   (errorPriority _).2.2.1 (Or.inr (Or.inl rfl)),
   (errorPriority _).2.2.2.1 "S" rfl (by decide),
   (errorPriority _).2.2.2.2.1 (Or.inr rfl)⟩

/-- C8: on error arrival the controller overwrites the whole state: the
message is `normalizeError`'s result, group list and displayed slice are
emptied, the page is reset to 1 and loading cleared — independently of the
prior state (no merge). -/
theorem errorStateOverwrite (env : JSEnv) (e : JSError) (s : ViewState) :
    wiredPayments env none (some e) s
      = ⟨[], [], some (normalizeError e), false, 1⟩ := rfl

/-- C9: `mapPaymentMethod` is a closed two-way classification: an absent
record or one with `displayType = 'BILL_TO_ACCOUNT'` yields the
bill-to-account view with the fixed label and all other fields null; any
other record yields the stored-account view with nickname, card type,
ending-in and expiration copied verbatim and a null label; no third
variant occurs. -/
theorem paymentMethodClassification (pm : Option RawPaymentMethod) :
    mapPaymentMethod none
        = ⟨some "Bill to Account", none, none, none, none, "BILL_TO_ACCOUNT"⟩
    ∧ (∀ p, p.displayType = some "BILL_TO_ACCOUNT" →
        mapPaymentMethod (some p)
          = ⟨some "Bill to Account", none, none, none, none, "BILL_TO_ACCOUNT"⟩)
    ∧ (∀ p, p.displayType ≠ some "BILL_TO_ACCOUNT" →
        mapPaymentMethod (some p)
          = ⟨none, p.nickname, p.cardType, p.endingIn, p.expiration,
             "STORED_ACCOUNT"⟩)
    ∧ ((mapPaymentMethod pm).type = "BILL_TO_ACCOUNT"
        ∨ (mapPaymentMethod pm).type = "STORED_ACCOUNT") := by
  refine ⟨rfl, fun p hp => ?_, fun p hp => ?_, ?_⟩
  · simp [mapPaymentMethod, hp]
  · simp [mapPaymentMethod, hp]
  · match pm with
    | none => exact Or.inl rfl
    | some p =>
      by_cases hp : p.displayType = some "BILL_TO_ACCOUNT"
      · exact Or.inl (by simp [mapPaymentMethod, hp])
      · exact Or.inr (by simp [mapPaymentMethod, hp])

/-- C9 witness: the two spec scenarios — a `BILL_TO_ACCOUNT` raw method and
a stored Visa card. -/
theorem paymentMethodClassification_witness :
    mapPaymentMethod (some ⟨some "BILL_TO_ACCOUNT", none, none, none, none⟩)
        = ⟨some "Bill to Account", none, none, none, none, "BILL_TO_ACCOUNT"⟩
    ∧ mapPaymentMethod
          (some ⟨none, some "Visa", some "VISA", some "1234", none⟩)
        = ⟨none, some "Visa", some "VISA", some "1234", none,
           "STORED_ACCOUNT"⟩ :=
  ⟨(paymentMethodClassification none).2.1 _ rfl,
   (paymentMethodClassification none).2.2.1 _ (by decide)⟩

/-- C10: `Number(null)` and `Number("")` are `0`, not `NaN`, so
`formatCurrency` and `formatDiscount` do not pass `null` or `""` through:
both inputs are formatted as the zero currency amount (`"$0.00"` under the
en-US/USD fallback). -/
theorem zeroCoercion (fmt : ℚ → Option String) :
    jsToNumber JSValue.null = some 0
    ∧ jsToNumber (JSValue.str "") = some 0
    ∧ enUSCurrency 0 = "$0.00"
    ∧ formatCurrency fmt JSValue.null
        = JSValue.str ((fmt 0).getD (enUSCurrency 0))
    ∧ formatDiscount fmt JSValue.null
        = JSValue.str ((fmt 0).getD (enUSCurrency 0))
    ∧ formatCurrency fmt (JSValue.str "")
        = JSValue.str ((fmt 0).getD (enUSCurrency 0))
    ∧ formatDiscount fmt (JSValue.str "")
        = JSValue.str ((fmt 0).getD (enUSCurrency 0))
    ∧ formatCurrency fmt JSValue.null ≠ JSValue.null
    ∧ formatCurrency (fun _ => none) (JSValue.str "")
        = JSValue.str "$0.00" := by
  have hE : enUSCurrency 0 = "$0.00" := by
    have hc : ratRoundHalfExpand ((0 : ℚ) * 100) = 0 := by
      rw [ratRoundHalfExpand, if_pos (by norm_num)]
      have h4 : ((0 : ℚ) * 100 + 1 / 2) = 1 / 2 := by norm_num
      rw [h4, ratFloor_eq]
      norm_num
    simp only [enUSCurrency]
    rw [hc]
    decide
  refine ⟨rfl, rfl, hE, rfl, rfl, rfl, rfl, by simp [formatCurrency, jsToNumber],
          ?_⟩
  rw [show formatCurrency (fun _ => none) (JSValue.str "")
        = JSValue.str (enUSCurrency 0) from rfl, hE]

/-- C10 witness: under the en-US/USD fallback the `null` amount surfaces as
the formatted zero `"$0.00"`, not as a pass-through value. -/
theorem zeroCoercion_witness :
    formatCurrency (fun _ => none) JSValue.null = JSValue.str "$0.00" := by
  have h1 := (zeroCoercion (fun _ => none)).2.2.2.1
  have h2 := (zeroCoercion (fun _ => none)).2.2.1
  rw [h1, show (((fun (_ : ℚ) => (none : Option String)) 0).getD
        (enUSCurrency 0)) = enUSCurrency 0 from rfl, h2]
